import Mathlib

/-!
# Verification of the agora SCP glue layer and its specified consensus core

This development shallowly embeds the C++ glue file
`source/scpp/extra/DUtils.cpp` together with the federated
Byzantine-agreement consensus core it serves, and proves the
specification's testable properties about them.

The glue file's own functions (`cpp_set_insert`, `bump5Hours`,
`makeTestSet`, `XDRToOpaque`) are embedded directly from the source.
The consensus core (quorum-slice evaluator, ballot protocol state
machine, envelope validator, slot driver) is not part of the provided
source tree; those components are modelled from the specification text,
as indicated on each definition.
-/

namespace Agora

/-! ## Part 1: the glue functions of DUtils.cpp -/

/-- Embedding of `cpp_set_insert<T>(void* setptr, void* key)` from
DUtils.cpp: dereferences the key and inserts it into the `std::set<T>`.
A `std::set` holds each value at most once, which `Finset` models. -/
def cpp_set_insert {α : Type} [DecidableEq α] (s : Finset α) (key : α) : Finset α :=
  insert key s

/-- Embedding of `makeTestSet()` from DUtils.cpp: allocates the set
`{1, 2, 3, 4, 5}` of `unsigned int` and returns it. -/
def makeTestSet : Finset ℕ := {1, 2, 3, 4, 5}

/-- `std::chrono::hours` converted to the milliseconds representation:
one hour is 3600 seconds of 1000 milliseconds each. -/
def hoursToMillis (h : ℕ) : ℕ := h * 3600 * 1000

/-- Embedding of `bump5Hours(void* ms)` from DUtils.cpp: adds
`std::chrono::hours(5)` to the pointed-to `std::chrono::milliseconds`
value. The representation of `std::chrono::milliseconds` is a 64-bit
integer, so the stored bit pattern is updated modulo 2^64. -/
def bump5Hours (d : ℕ) : ℕ := (d + hoursToMillis 5) % 2 ^ 64

end Agora

namespace Agora

/-! ## Part 2: the quorum-slice evaluator

Modelled from the spec: the consensus core's quorum-slice evaluator is
not in the provided source tree (only the glue layer is); the spec
describes it as recursive threshold counting over a quorum-set tree. -/

/-- Modelled from the spec: `SCPQuorumSet` is a recursive structure, a
threshold over a mixed set of NodeIDs (`validators`) and nested quorum
sets (`innerSets`). NodeIDs are modelled as naturals. -/
inductive SCPQuorumSet : Type where
  | mk (threshold : ℕ) (validators : List ℕ) (innerSets : List SCPQuorumSet)

/-- Number of validators of `S` that appear among the given leaf
NodeIDs. -/
def countVals (S : List ℕ) (vs : List ℕ) : ℕ :=
  vs.countP (fun v => decide (v ∈ S))

mutual

/-- Modelled from the spec: the quorum-slice evaluator. A node set `S`
satisfies a quorum set when at least `threshold` of its immediate
children (leaf NodeIDs in `S`, or nested sets recursively satisfied)
are satisfied; an empty (zero-threshold) quorum set is never
satisfied. -/
def satisfiesSlice (S : List ℕ) : SCPQuorumSet → Bool
  | .mk t vs inner => decide (0 < t) && decide (t ≤ countVals S vs + countSat S inner)

/-- Number of nested quorum sets satisfied by `S`. -/
def countSat (S : List ℕ) : List SCPQuorumSet → ℕ
  | [] => 0
  | q :: qs => (if satisfiesSlice S q then 1 else 0) + countSat S qs

end

mutual

/-- Modelled from the spec: the v-blocking evaluator. A node set `S`
is v-blocking for a quorum set when it intersects every possible slice,
which holds exactly when the children it blocks leave fewer than
`threshold` children available; a zero-threshold quorum set has no
slices to block. -/
def isVBlocking (S : List ℕ) : SCPQuorumSet → Bool
  | .mk t vs inner =>
      decide (0 < t) &&
        decide (vs.length + inner.length - t + 1 ≤ countVals S vs + countBlocked S inner)

/-- Number of nested quorum sets blocked by `S`. -/
def countBlocked (S : List ℕ) : List SCPQuorumSet → ℕ
  | [] => 0
  | q :: qs => (if isVBlocking S q then 1 else 0) + countBlocked S qs

end

/-! ## Part 3: data model and ballot protocol state machine

Modelled from the spec: the SCP message types are declared in XDR files
outside the provided source tree; the glue file only references them.
They are reconstructed here from the spec's data model section. -/

/-- Modelled from the spec: `SCPBallot` is a pair of an unsigned
counter and an opaque value (byte sequence, bytes as naturals). -/
structure SCPBallot : Type where
  counter : ℕ
  value : List ℕ
deriving DecidableEq

/-- Modelled from the spec: the pledge carried by an `SCPStatement`, a
tagged variant over NOMINATE, PREPARE, CONFIRM and EXTERNALIZE, each
carrying ballot(s) or nominated values. -/
inductive SCPPledge : Type where
  | nominate (votes : List (List ℕ)) (accepted : List (List ℕ))
  | prepare (ballot : SCPBallot)
  | confirm (ballot : SCPBallot) (nCommit : ℕ) (nH : ℕ)
  | externalize (commit : SCPBallot) (nH : ℕ)
deriving DecidableEq

/-- Modelled from the spec: an `SCPStatement` carries the sender
NodeID, the slot index, the hash of the sender's quorum set and the
tagged pledge. -/
structure SCPStatement : Type where
  nodeID : ℕ
  slotIndex : ℕ
  quorumSetHash : ℕ
  pledge : SCPPledge
deriving DecidableEq

/-- Modelled from the spec: an `SCPEnvelope` is a statement plus a
signature (the sender NodeID is inside the statement). -/
structure SCPEnvelope : Type where
  statement : SCPStatement
  signature : List ℕ
deriving DecidableEq

/-- Modelled from the spec: the four phases of a slot. -/
inductive SCPPhase : Type where
  | nominate
  | prepare
  | confirm
  | externalize
deriving DecidableEq

/-- Position of a phase in the order NOMINATE < PREPARE < CONFIRM <
EXTERNALIZE. -/
def phaseIdx : SCPPhase → ℕ
  | .nominate => 0
  | .prepare => 1
  | .confirm => 2
  | .externalize => 3

/-- The phase a pledge belongs to. -/
def pledgePhase : SCPPledge → SCPPhase
  | .nominate _ _ => .nominate
  | .prepare _ => .prepare
  | .confirm _ _ _ => .confirm
  | .externalize _ _ => .externalize

/-- The ballot a pledge carries, when any. -/
def pledgeBallot : SCPPledge → Option SCPBallot
  | .nominate _ _ => none
  | .prepare b => some b
  | .confirm b _ _ => some b
  | .externalize b _ => some b

/-- The ballot counter of a statement (0 for nomination pledges). -/
def stmtCounter (st : SCPStatement) : ℕ :=
  match pledgeBallot st.pledge with
  | none => 0
  | some b => b.counter

/-- Modelled from the spec: mutable per-slot state owned by the driver:
current phase, counter of the confirmed ballot (0 before any
confirmation), highest ballot seen, latest statement per node, and the
nomination candidate set. -/
structure Slot : Type where
  phase : SCPPhase
  confirmedCounter : ℕ
  highest : Option SCPBallot
  latest : List (ℕ × SCPStatement)
  candidates : List (List ℕ)
deriving DecidableEq

/-- The initial state of a slot. -/
def initSlot : Slot := ⟨.nominate, 0, none, [], []⟩

/-- Look up the latest recorded statement of a node. -/
def lookupStmt : List (ℕ × SCPStatement) → ℕ → Option SCPStatement
  | [], _ => none
  | (m, st) :: rest, n => if m = n then some st else lookupStmt rest n

/-- Record a node's latest statement, replacing any older one from that
node. -/
def setStmt : List (ℕ × SCPStatement) → ℕ → SCPStatement → List (ℕ × SCPStatement)
  | [], n, st => [(n, st)]
  | (m, s0) :: rest, n, st =>
      if m = n then (n, st) :: rest else (m, s0) :: setStmt rest n st

/-- Nodes whose latest statement pledges a phase at least `p`. -/
def nodesWithPhaseGe (l : List (ℕ × SCPStatement)) (p : SCPPhase) : List ℕ :=
  (l.filter (fun ns => decide (phaseIdx p ≤ phaseIdx (pledgePhase ns.2.pledge)))).map (·.1)

/-- The phase following `p` in the forward order (EXTERNALIZE is its
own successor). -/
def nextPhase : SCPPhase → SCPPhase
  | .nominate => .prepare
  | .prepare => .confirm
  | .confirm => .externalize
  | .externalize => .externalize

/-- Whether the recorded statements give a quorum for phase `p`: the
nodes pledging at least `p` satisfy the configured quorum set. -/
def phaseReached (cfg : SCPQuorumSet) (l : List (ℕ × SCPStatement)) (p : SCPPhase) : Bool :=
  satisfiesSlice (nodesWithPhaseGe l p) cfg

/-- Modelled from the spec: add nominated values to the candidate set,
which grows monotonically and never narrows. -/
def addValues (cs : List (List ℕ)) (vs : List (List ℕ)) : List (List ℕ) :=
  vs.foldl (fun acc v => if v ∈ acc then acc else acc ++ [v]) cs

/-- Candidate values contributed by a pledge. -/
def addCandidates (cs : List (List ℕ)) : SCPPledge → List (List ℕ)
  | .nominate votes accepted => addValues (addValues cs votes) accepted
  | _ => cs

/-- Update the highest ballot seen with the pledged ballot. -/
def updateHighest (h : Option SCPBallot) (p : SCPPledge) : Option SCPBallot :=
  match pledgeBallot p with
  | none => h
  | some b =>
      match h with
      | none => some b
      | some hb => if hb.counter < b.counter then some b else some hb

/-- Modelled from the spec: advance the slot's phase by one step when a
quorum of recorded statements pledges at least the next phase; on
entering CONFIRM the confirmed ballot counter is raised to the highest
ballot's counter. EXTERNALIZE never advances further. -/
def advancePhase (cfg : SCPQuorumSet) (st : Slot) : Slot :=
  match st.phase with
  | .externalize => st
  | p =>
      if phaseReached cfg st.latest (nextPhase p) then
        { st with
          phase := nextPhase p,
          confirmedCounter :=
            if nextPhase p = .confirm then
              max st.confirmedCounter
                (match st.highest with | none => 0 | some b => b.counter)
            else st.confirmedCounter }
      else st

/-- Record an acceptable statement into the slot and re-evaluate the
phase. -/
def ingest (cfg : SCPQuorumSet) (st : Slot) (e : SCPEnvelope) : Slot :=
  advancePhase cfg
    { st with
      latest := setStmt st.latest e.statement.nodeID e.statement,
      candidates := addCandidates st.candidates e.statement.pledge,
      highest := updateHighest st.highest e.statement.pledge }

/-- Modelled from the spec: the ballot protocol step of a slot. An
EXTERNALIZE'd slot processes no further statements; a stale statement
(counter below the confirmed ballot) is ignored; a statement older than
the node's recorded one (lower counter) is ignored; otherwise the
statement is recorded and the phase re-evaluated. -/
def processEnvelope (cfg : SCPQuorumSet) (st : Slot) (e : SCPEnvelope) : Slot :=
  if st.phase = .externalize then st
  else if stmtCounter e.statement < st.confirmedCounter then st
  else
    match lookupStmt st.latest e.statement.nodeID with
    | some old => if stmtCounter e.statement < stmtCounter old then st
                  else ingest cfg st e
    | none => ingest cfg st e

/-- Process a sequence of envelopes in order. -/
def processAll (cfg : SCPQuorumSet) (st : Slot) (es : List SCPEnvelope) : Slot :=
  es.foldl (processEnvelope cfg) st

/-! ## Part 4: envelope/statement validator and driver

Modelled from the spec: the validator and slot driver are part of the
consensus core absent from the provided source tree. -/

/-- Modelled from the spec: the validation error kinds. -/
inductive ValidationError : Type where
  | BadSignature
  | StaleSlot
  | Malformed
  | UnknownQuorumSet
deriving DecidableEq

/-- Modelled from the spec: the injected signer capability, abstracted
as a deterministic signature derived from the statement and the claimed
NodeID. -/
def mkSig (st : SCPStatement) : List ℕ := [st.nodeID, st.slotIndex, st.quorumSetHash]

/-- Modelled from the spec: the injected verifier capability: a
signature is valid when it is the claimed NodeID's signature of the
statement. -/
def verifySig (e : SCPEnvelope) : Bool := decide (e.signature = mkSig e.statement)

/-- Well-formedness of a ballot: counter positive, value non-empty. -/
def ballotWellFormed (b : SCPBallot) : Bool :=
  decide (0 < b.counter) && decide (b.value ≠ [])

/-- Modelled from the spec: statement well-formedness (ballot counter
greater than 0, value non-empty where required). -/
def wellFormedStmt (st : SCPStatement) : Bool :=
  match st.pledge with
  | .nominate votes accepted =>
      votes.all (fun v => decide (v ≠ [])) && accepted.all (fun v => decide (v ≠ []))
  | .prepare b => ballotWellFormed b
  | .confirm b _ _ => ballotWellFormed b
  | .externalize b _ => ballotWellFormed b

/-- Modelled from the spec: the driver's state: the lowest tracked
slot, the hashes of known quorum sets, and per-slot state. -/
structure Driver : Type where
  lowestSlot : ℕ
  knownHashes : List ℕ
  slots : List (ℕ × Slot)
deriving DecidableEq

/-- Look up a slot's state by index. -/
def lookupSlot : List (ℕ × Slot) → ℕ → Option Slot
  | [], _ => none
  | (m, s) :: rest, n => if m = n then some s else lookupSlot rest n

/-- Store a slot's state by index. -/
def setSlot : List (ℕ × Slot) → ℕ → Slot → List (ℕ × Slot)
  | [], n, s => [(n, s)]
  | (m, s0) :: rest, n, s =>
      if m = n then (n, s) :: rest else (m, s0) :: setSlot rest n s

/-- Dispatch a validated envelope into its slot's state machine. -/
def dispatchEnvelope (cfg : SCPQuorumSet) (d : Driver) (e : SCPEnvelope) : Driver :=
  let i := e.statement.slotIndex
  let s0 := match lookupSlot d.slots i with | some s => s | none => initSlot
  { d with slots := setSlot d.slots i (processEnvelope cfg s0 e) }

/-- Modelled from the spec: `submitEnvelope` validates the envelope
(signature, slot index not below the lowest tracked slot,
well-formedness, known quorum set) and only then dispatches it; on any
validation failure it reports the error kind and leaves the driver
unchanged. -/
def submitEnvelope (cfg : SCPQuorumSet) (d : Driver) (e : SCPEnvelope) :
    Option ValidationError × Driver :=
  if ¬ verifySig e then (some .BadSignature, d)
  else if e.statement.slotIndex < d.lowestSlot then (some .StaleSlot, d)
  else if ¬ wellFormedStmt e.statement then (some .Malformed, d)
  else if ¬ d.knownHashes.contains e.statement.quorumSetHash then (some .UnknownQuorumSet, d)
  else (none, dispatchEnvelope cfg d e)

/-! ## Part 5: the multi-node system

Modelled from the spec: a fixed quorum configuration and a
deterministic message schedule; every (correct) node runs the same slot
machine and processes the schedule's messages in order, each node at
its own pace. -/

/-- The slot state of a node for slot `s` after processing the first
`k` schedule messages: the slot machine run over the messages of the
prefix that belong to slot `s`. -/
def runSlot (cfg : SCPQuorumSet) (sched : List SCPEnvelope) (s k : ℕ) : Slot :=
  processAll cfg initSlot
    ((sched.take k).filter (fun e => decide (e.statement.slotIndex = s)))

/-- The externalized value of a slot state, when the slot has reached
EXTERNALIZE. -/
def extValue (st : Slot) : Option (List ℕ) :=
  if st.phase = .externalize then st.highest.map (·.value) else none

/-- Modelled from the spec: one step of the multi-node system delivers
the next schedule message to one node; a system state records how many
schedule messages each node has processed. -/
inductive SysStep (sched : List SCPEnvelope) : List ℕ → List ℕ → Prop where
  | deliver (counts : List ℕ) (i : ℕ) (h : i < counts.length)
      (hc : counts.get ⟨i, h⟩ < sched.length) :
      SysStep sched counts (counts.set i (counts.get ⟨i, h⟩ + 1))

/-- Node `i`'s externalized value for slot `s` in system state
`counts`. -/
def nodeExtValue (cfg : SCPQuorumSet) (sched : List SCPEnvelope) (s : ℕ)
    (counts : List ℕ) (i : ℕ) : Option (List ℕ) :=
  extValue (runSlot cfg sched s (counts.getD i 0))

/-- A sample quorum configuration: threshold 1 over node 1. -/
def cfgW : SCPQuorumSet := .mk 1 [1] []

/-- A sample schedule driving slot 0 through PREPARE, CONFIRM and
EXTERNALIZE for the value [7]. -/
def schedW : List SCPEnvelope :=
  [⟨⟨1, 0, 0, .prepare ⟨1, [7]⟩⟩, []⟩,
   ⟨⟨1, 0, 0, .confirm ⟨1, [7]⟩ 1 1⟩, []⟩,
   ⟨⟨1, 0, 0, .externalize ⟨1, [7]⟩ 1⟩, []⟩]

/-! ## Part 6: XDR serialization

The glue file's `XDRToOpaque` overloads delegate to `xdr_to_opaque`
from xdrpp, which is outside the provided source tree. Modelled from
the spec: XDR encoding of the SCP message types, with unsigned integers
as big-endian byte groups and opaque vectors length-prefixed. -/

/-- XDR encoding of a 32-bit unsigned integer: four big-endian
bytes. -/
def encodeU32 (n : ℕ) : List ℕ :=
  [n / 2 ^ 24 % 256, n / 2 ^ 16 % 256, n / 2 ^ 8 % 256, n % 256]

/-- Decode a 32-bit unsigned integer from four big-endian bytes. -/
def decodeU32 : List ℕ → Option (ℕ × List ℕ)
  | b0 :: b1 :: b2 :: b3 :: rest =>
      some (b0 * 2 ^ 24 + b1 * 2 ^ 16 + b2 * 2 ^ 8 + b3, rest)
  | _ => none

/-- XDR encoding of a 64-bit unsigned integer: eight big-endian
bytes. -/
def encodeU64 (n : ℕ) : List ℕ := encodeU32 (n / 2 ^ 32) ++ encodeU32 (n % 2 ^ 32)

/-- Decode a 64-bit unsigned integer. -/
def decodeU64 (bs : List ℕ) : Option (ℕ × List ℕ) :=
  match decodeU32 bs with
  | some (hi, r1) =>
      match decodeU32 r1 with
      | some (lo, r2) => some (hi * 2 ^ 32 + lo, r2)
      | none => none
  | none => none

/-- XDR encoding of an opaque byte vector: 32-bit length followed by
the bytes. -/
def encodeOpaque (bs : List ℕ) : List ℕ := encodeU32 bs.length ++ bs

/-- Decode an opaque byte vector. -/
def decodeOpaque (bs : List ℕ) : Option (List ℕ × List ℕ) :=
  match decodeU32 bs with
  | some (len, r) =>
      if len ≤ r.length then some (r.take len, r.drop len) else none
  | none => none

/-- XDR encoding of a list of opaque values: 32-bit count followed by
the encoded elements. -/
def encodeValueList (vs : List (List ℕ)) : List ℕ :=
  encodeU32 vs.length ++ vs.foldr (fun v acc => encodeOpaque v ++ acc) []

/-- Decode exactly `n` opaque values. -/
def decodeOpaqueN : ℕ → List ℕ → Option (List (List ℕ) × List ℕ)
  | 0, bs => some ([], bs)
  | n + 1, bs =>
      match decodeOpaque bs with
      | some (v, r) =>
          match decodeOpaqueN n r with
          | some (vs, r2) => some (v :: vs, r2)
          | none => none
      | none => none

/-- Decode a counted list of opaque values. -/
def decodeValueList (bs : List ℕ) : Option (List (List ℕ) × List ℕ) :=
  match decodeU32 bs with
  | some (n, r) => decodeOpaqueN n r
  | none => none

/-- XDR encoding of a ballot: counter then value. -/
def encodeBallot (b : SCPBallot) : List ℕ := encodeU32 b.counter ++ encodeOpaque b.value

/-- Decode a ballot. -/
def decodeBallot (bs : List ℕ) : Option (SCPBallot × List ℕ) :=
  match decodeU32 bs with
  | some (c, r) =>
      match decodeOpaque r with
      | some (v, r2) => some (⟨c, v⟩, r2)
      | none => none
  | none => none

/-- XDR encoding of a pledge: 32-bit discriminant tag, then the
variant's fields. -/
def encodePledge : SCPPledge → List ℕ
  | .nominate votes accepted => encodeU32 0 ++ encodeValueList votes ++ encodeValueList accepted
  | .prepare b => encodeU32 1 ++ encodeBallot b
  | .confirm b nc nh => encodeU32 2 ++ encodeBallot b ++ encodeU32 nc ++ encodeU32 nh
  | .externalize b nh => encodeU32 3 ++ encodeBallot b ++ encodeU32 nh

/-- Decode a pledge. -/
def decodePledge (bs : List ℕ) : Option (SCPPledge × List ℕ) :=
  match decodeU32 bs with
  | none => none
  | some (tag, r) =>
      if tag = 0 then
        match decodeValueList r with
        | some (votes, r1) =>
            match decodeValueList r1 with
            | some (accepted, r2) => some (.nominate votes accepted, r2)
            | none => none
        | none => none
      else if tag = 1 then
        match decodeBallot r with
        | some (b, r1) => some (.prepare b, r1)
        | none => none
      else if tag = 2 then
        match decodeBallot r with
        | some (b, r1) =>
            match decodeU32 r1 with
            | some (nc, r2) =>
                match decodeU32 r2 with
                | some (nh, r3) => some (.confirm b nc nh, r3)
                | none => none
            | none => none
        | none => none
      else if tag = 3 then
        match decodeBallot r with
        | some (b, r1) =>
            match decodeU32 r1 with
            | some (nh, r2) => some (.externalize b nh, r2)
            | none => none
        | none => none
      else none

/-- Embedding of the `XDRToOpaque` overload for `SCPStatement`: the XDR
serialization of a statement, with its three 64-bit header fields
followed by the pledge. -/
def XDRToOpaqueStatement (st : SCPStatement) : List ℕ :=
  encodeU64 st.nodeID ++ encodeU64 st.slotIndex ++ encodeU64 st.quorumSetHash ++
    encodePledge st.pledge

/-- Embedding of the `XDRToOpaque` overload for opaque byte vectors:
the XDR serialization of an `xvector<unsigned char>`. -/
def XDRToOpaqueBytes (v : List ℕ) : List ℕ := encodeOpaque v

/-- Decode a statement. -/
def deserializeStatement (bs : List ℕ) : Option (SCPStatement × List ℕ) :=
  match decodeU64 bs with
  | some (nid, r1) =>
      match decodeU64 r1 with
      | some (slot, r2) =>
          match decodeU64 r2 with
          | some (qsh, r3) =>
              match decodePledge r3 with
              | some (p, r4) => some (⟨nid, slot, qsh, p⟩, r4)
              | none => none
          | none => none
      | none => none
  | none => none

/-- XDR serialization of an envelope: the serialized statement followed
by the opaque signature. -/
def serializeEnvelope (e : SCPEnvelope) : List ℕ :=
  XDRToOpaqueStatement e.statement ++ XDRToOpaqueBytes e.signature

/-- Deserialize an envelope, rejecting trailing bytes. -/
def deserializeEnvelope (bs : List ℕ) : Option SCPEnvelope :=
  match deserializeStatement bs with
  | some (st, r) =>
      match decodeOpaque r with
      | some (sig, r2) => if r2 = [] then some ⟨st, sig⟩ else none
      | none => none
  | none => none

/-- A value fits its XDR opaque encoding. -/
def wfValue (v : List ℕ) : Prop := v.length < 2 ^ 32

/-- A ballot fits its XDR encoding. -/
def wfBallot (b : SCPBallot) : Prop := b.counter < 2 ^ 32 ∧ wfValue b.value

/-- A pledge fits its XDR encoding. -/
def wfPledge : SCPPledge → Prop
  | .nominate votes accepted =>
      votes.length < 2 ^ 32 ∧ accepted.length < 2 ^ 32 ∧
        (∀ v ∈ votes, wfValue v) ∧ (∀ v ∈ accepted, wfValue v)
  | .prepare b => wfBallot b
  | .confirm b nc nh => wfBallot b ∧ nc < 2 ^ 32 ∧ nh < 2 ^ 32
  | .externalize b nh => wfBallot b ∧ nh < 2 ^ 32

/-- A statement fits its XDR encoding. -/
def wfStatement (st : SCPStatement) : Prop :=
  st.nodeID < 2 ^ 64 ∧ st.slotIndex < 2 ^ 64 ∧ st.quorumSetHash < 2 ^ 64 ∧
    wfPledge st.pledge

/-- An envelope fits its XDR encoding. -/
def wfEnvelope (e : SCPEnvelope) : Prop :=
  wfStatement e.statement ∧ e.signature.length < 2 ^ 32

/-- `countVals` is monotone in the node set. -/
theorem countVals_mono {S T : List ℕ} (h : ∀ x ∈ S, x ∈ T) (vs : List ℕ) :
    countVals S vs ≤ countVals T vs := by
  induction vs with
  | nil => simp [countVals]
  | cons v vs ih =>
      simp only [countVals, List.countP_cons] at *
      have : (if decide (v ∈ S) = true then 1 else 0) ≤
          (if decide (v ∈ T) = true then 1 else 0) := by
        by_cases hv : v ∈ S
        · simp [hv, h v hv]
        · simp [hv]
      omega

mutual

/-- The quorum-slice evaluator is monotone in the node set. -/
theorem satisfiesSlice_mono {S T : List ℕ} (h : ∀ x ∈ S, x ∈ T) :
    ∀ q : SCPQuorumSet, satisfiesSlice S q = true → satisfiesSlice T q = true
  | .mk t vs inner => by
      simp only [satisfiesSlice, Bool.and_eq_true, decide_eq_true_eq]
      intro ⟨ht, hc⟩
      refine ⟨ht, le_trans hc ?_⟩
      have h1 := countVals_mono h vs
      have h2 := countSat_mono h inner
      omega

/-- `countSat` is monotone in the node set. -/
theorem countSat_mono {S T : List ℕ} (h : ∀ x ∈ S, x ∈ T) :
    ∀ qs : List SCPQuorumSet, countSat S qs ≤ countSat T qs
  | [] => le_refl _
  | q :: qs => by
      simp only [countSat]
      have h1 : (if satisfiesSlice S q then 1 else 0) ≤
          (if satisfiesSlice T q then 1 else 0) := by
        by_cases hq : satisfiesSlice S q = true
        · simp [hq, satisfiesSlice_mono h q hq]
        · simp [hq]
      have h2 := countSat_mono h qs
      omega

end

mutual

/-- The v-blocking evaluator is monotone in the node set. -/
theorem isVBlocking_mono {S T : List ℕ} (h : ∀ x ∈ S, x ∈ T) :
    ∀ q : SCPQuorumSet, isVBlocking S q = true → isVBlocking T q = true
  | .mk t vs inner => by
      simp only [isVBlocking, Bool.and_eq_true, decide_eq_true_eq]
      intro ⟨ht, hc⟩
      refine ⟨ht, le_trans hc ?_⟩
      have h1 := countVals_mono h vs
      have h2 := countBlocked_mono h inner
      omega

/-- `countBlocked` is monotone in the node set. -/
theorem countBlocked_mono {S T : List ℕ} (h : ∀ x ∈ S, x ∈ T) :
    ∀ qs : List SCPQuorumSet, countBlocked S qs ≤ countBlocked T qs
  | [] => le_refl _
  | q :: qs => by
      simp only [countBlocked]
      have h1 : (if isVBlocking S q then 1 else 0) ≤
          (if isVBlocking T q then 1 else 0) := by
        by_cases hq : isVBlocking S q = true
        · simp [hq, isVBlocking_mono h q hq]
        · simp [hq]
      have h2 := countBlocked_mono h qs
      omega

end

/-- C3: the quorum-slice evaluator is monotone: if `S ⊆ T` then a
quorum set satisfied by `S` (as a quorum slice or as a v-blocking set)
is satisfied by `T`, i.e. evaluator(Q,S) ≤ evaluator(Q,T) in the Bool
order. -/
theorem evaluator_monotone (Q : SCPQuorumSet) (S T : List ℕ)
    (h : ∀ x ∈ S, x ∈ T) :
    satisfiesSlice S Q ≤ satisfiesSlice T Q ∧ isVBlocking S Q ≤ isVBlocking T Q := by
  constructor
  · cases hS : satisfiesSlice S Q
    · exact Bool.false_le _
    · exact le_of_eq (satisfiesSlice_mono h Q hS).symm
  · cases hS : isVBlocking S Q
    · exact Bool.false_le _
    · exact le_of_eq (isVBlocking_mono h Q hS).symm

/-- Witness for C3: a concrete quorum set (threshold 2 over three
validators) evaluated on the node sets [1] ⊆ [1, 2]. -/
theorem evaluator_monotone_witness :
    (∀ x ∈ [1], x ∈ [1, 2]) ∧
    satisfiesSlice [1] (.mk 2 [1, 2, 3] []) ≤ satisfiesSlice [1, 2] (.mk 2 [1, 2, 3] []) ∧
    isVBlocking [1] (.mk 2 [1, 2, 3] []) ≤ isVBlocking [1, 2] (.mk 2 [1, 2, 3] []) :=
  ⟨by decide, evaluator_monotone (.mk 2 [1, 2, 3] []) [1] [1, 2] (by decide)⟩

/-! ### Helper lemmas on the slot machine -/

/-- `advancePhase` does not change the recorded statements. -/
theorem advancePhase_latest (cfg : SCPQuorumSet) (st : Slot) :
    (advancePhase cfg st).latest = st.latest := by
  cases h : st.phase <;> simp [advancePhase, h] <;> split <;> rfl

/-- `advancePhase` never lowers the phase. -/
theorem advancePhase_phase_le (cfg : SCPQuorumSet) (st : Slot) :
    phaseIdx st.phase ≤ phaseIdx (advancePhase cfg st).phase := by
  cases h : st.phase <;> simp [advancePhase, h] <;> split <;>
    simp [phaseIdx, nextPhase, h]

/-- The recorded statements after `ingest` are the old ones with the
sender's statement set. -/
theorem ingest_latest (cfg : SCPQuorumSet) (st : Slot) (e : SCPEnvelope) :
    (ingest cfg st e).latest = setStmt st.latest e.statement.nodeID e.statement := by
  simp [ingest, advancePhase_latest]

/-- `ingest` never lowers the phase. -/
theorem ingest_phase_le (cfg : SCPQuorumSet) (st : Slot) (e : SCPEnvelope) :
    phaseIdx st.phase ≤ phaseIdx (ingest cfg st e).phase := by
  unfold ingest
  exact advancePhase_phase_le cfg
    { st with
      latest := setStmt st.latest e.statement.nodeID e.statement,
      candidates := addCandidates st.candidates e.statement.pledge,
      highest := updateHighest st.highest e.statement.pledge }

/-- A single processing step never lowers the phase. -/
theorem processEnvelope_phase_le (cfg : SCPQuorumSet) (st : Slot) (e : SCPEnvelope) :
    phaseIdx st.phase ≤ phaseIdx (processEnvelope cfg st e).phase := by
  unfold processEnvelope
  split
  · exact le_refl _
  · split
    · exact le_refl _
    · split
      · split
        · exact le_refl _
        · exact ingest_phase_le cfg st e
      · exact ingest_phase_le cfg st e

/-- An EXTERNALIZE'd slot is unchanged by any further envelope. -/
theorem processEnvelope_terminal (cfg : SCPQuorumSet) (st : Slot) (e : SCPEnvelope)
    (h : st.phase = .externalize) : processEnvelope cfg st e = st := by
  simp [processEnvelope, h]

/-- Processing any sequence of envelopes never lowers the phase. -/
theorem processAll_phase_le (cfg : SCPQuorumSet) (es : List SCPEnvelope) :
    ∀ st : Slot, phaseIdx st.phase ≤ phaseIdx (processAll cfg st es).phase := by
  induction es with
  | nil => intro st; simp [processAll]
  | cons e es ih =>
      intro st
      have h1 := processEnvelope_phase_le cfg st e
      have h2 := ih (processEnvelope cfg st e)
      simp only [processAll, List.foldl_cons] at h2 ⊢
      omega

/-- Looking up after recording a statement gives the new statement for
the sender and the old answer for every other node. -/
theorem lookupStmt_setStmt (l : List (ℕ × SCPStatement)) (n m : ℕ) (st : SCPStatement) :
    lookupStmt (setStmt l n st) m = if n = m then some st else lookupStmt l m := by
  induction l with
  | nil => by_cases h : n = m <;> simp [setStmt, lookupStmt, h]
  | cons p rest ih =>
      obtain ⟨k, s0⟩ := p
      by_cases hk : k = n
      · subst hk
        by_cases hm : k = m <;> simp [setStmt, lookupStmt, hm]
      · by_cases hm : k = m
        · have hnm : ¬ n = m := fun h => hk (hm.trans h.symm)
          have hmn : ¬ m = n := fun h => hnm h.symm
          subst hm
          simp [setStmt, lookupStmt, hnm, hmn]
        · simp [setStmt, lookupStmt, hk, hm, ih]

/-! ### The claims on the slot machine -/

/-- C4: a slot's phase never regresses: a processing step only moves
the phase forward in the order NOMINATE < PREPARE < CONFIRM <
EXTERNALIZE, EXTERNALIZE is terminal (a step from it changes nothing),
and hence any sequence of processed envelopes only moves the phase
forward. -/
theorem phase_monotone (cfg : SCPQuorumSet) (st : Slot) (e : SCPEnvelope)
    (es : List SCPEnvelope) :
    phaseIdx st.phase ≤ phaseIdx (processEnvelope cfg st e).phase ∧
    (st.phase = .externalize → processEnvelope cfg st e = st) ∧
    phaseIdx st.phase ≤ phaseIdx (processAll cfg st es).phase :=
  ⟨processEnvelope_phase_le cfg st e,
   processEnvelope_terminal cfg st e,
   processAll_phase_le cfg es st⟩

/-- C5: within a slot, a node's ballot counter is non-decreasing across
accepted statements: if node `n`'s recorded statement is `p` before a
step and `q` after it, then `q`'s counter is at least `p`'s. -/
theorem ballot_counter_nondecreasing (cfg : SCPQuorumSet) (st : Slot) (e : SCPEnvelope)
    (n : ℕ) (p q : SCPStatement)
    (h1 : lookupStmt st.latest n = some p)
    (h2 : lookupStmt (processEnvelope cfg st e).latest n = some q) :
    stmtCounter p ≤ stmtCounter q := by
  unfold processEnvelope at h2
  split at h2
  · rw [h1] at h2; injection h2 with h2; rw [h2]
  · split at h2
    · rw [h1] at h2; injection h2 with h2; rw [h2]
    · split at h2
      case h_1 old heq =>
        split at h2
        · rw [h1] at h2; injection h2 with h2; rw [h2]
        case isFalse hge =>
          rw [ingest_latest, lookupStmt_setStmt] at h2
          split at h2
          case isTrue hn =>
            rw [hn, h1] at heq
            injection heq with heq
            injection h2 with h2
            rw [heq, ← h2]
            omega
          case isFalse hn =>
            rw [h1] at h2; injection h2 with h2; rw [h2]
      case h_2 heq =>
        rw [ingest_latest, lookupStmt_setStmt] at h2
        split at h2
        case isTrue hn =>
          rw [hn, h1] at heq
          cases heq
        case isFalse hn =>
          rw [h1] at h2; injection h2 with h2; rw [h2]

/-- Witness for C5 at a concrete slot and envelope. -/
theorem ballot_counter_nondecreasing_witness :
    stmtCounter ⟨1, 0, 0, .prepare ⟨1, [7]⟩⟩ ≤ stmtCounter ⟨1, 0, 0, .prepare ⟨2, [7]⟩⟩ :=
  ballot_counter_nondecreasing (.mk 1 [1] [])
    { initSlot with latest := [(1, ⟨1, 0, 0, .prepare ⟨1, [7]⟩⟩)] }
    ⟨⟨1, 0, 0, .prepare ⟨2, [7]⟩⟩, []⟩ 1
    ⟨1, 0, 0, .prepare ⟨1, [7]⟩⟩ ⟨1, 0, 0, .prepare ⟨2, [7]⟩⟩
    (by decide) (by decide)

/-- C6: a stale statement, whose ballot counter is below the slot's
confirmed ballot counter, leaves the entire slot state unchanged. -/
theorem stale_statement_ignored (cfg : SCPQuorumSet) (st : Slot) (e : SCPEnvelope)
    (h : stmtCounter e.statement < st.confirmedCounter) :
    processEnvelope cfg st e = st := by
  simp [processEnvelope, h]

/-- Witness for C6: a stale prepare statement at a concrete slot. -/
theorem stale_statement_ignored_witness :
    processEnvelope (.mk 1 [1] []) { initSlot with confirmedCounter := 5 }
      ⟨⟨2, 0, 0, .prepare ⟨1, [9]⟩⟩, []⟩ = { initSlot with confirmedCounter := 5 } :=
  stale_statement_ignored (.mk 1 [1] []) { initSlot with confirmedCounter := 5 }
    ⟨⟨2, 0, 0, .prepare ⟨1, [9]⟩⟩, []⟩ (by decide)

/-- Witness for C4 at a concrete configuration, slot and envelopes. -/
theorem phase_monotone_witness :
    phaseIdx initSlot.phase ≤
      phaseIdx (processEnvelope (.mk 1 [1] []) initSlot ⟨⟨1, 0, 0, .prepare ⟨1, [7]⟩⟩, []⟩).phase ∧
    (initSlot.phase = .externalize →
      processEnvelope (.mk 1 [1] []) initSlot ⟨⟨1, 0, 0, .prepare ⟨1, [7]⟩⟩, []⟩ = initSlot) ∧
    phaseIdx initSlot.phase ≤
      phaseIdx (processAll (.mk 1 [1] []) initSlot [⟨⟨1, 0, 0, .prepare ⟨1, [7]⟩⟩, []⟩]).phase :=
  phase_monotone (.mk 1 [1] []) initSlot ⟨⟨1, 0, 0, .prepare ⟨1, [7]⟩⟩, []⟩
    [⟨⟨1, 0, 0, .prepare ⟨1, [7]⟩⟩, []⟩]

/-- C8: `makeTestSet` returns a set of size 5 whose members are exactly
1, 2, 3, 4 and 5. -/
theorem makeTestSet_spec :
    makeTestSet.card = 5 ∧
    ∀ x : ℕ, x ∈ makeTestSet ↔ (x = 1 ∨ x = 2 ∨ x = 3 ∨ x = 4 ∨ x = 5) := by
  constructor
  · decide
  · intro x
    simp [makeTestSet]

/-- C9: after `cpp_set_insert s k` the set contains `k`; the size grows
by one exactly when `k` was absent and is unchanged when it was present;
and inserting the same key twice gives the same set as inserting it
once. -/
theorem cpp_set_insert_spec {α : Type} [DecidableEq α] (s : Finset α) (k : α) :
    k ∈ cpp_set_insert s k ∧
    (cpp_set_insert s k).card = (if k ∈ s then s.card else s.card + 1) ∧
    cpp_set_insert (cpp_set_insert s k) k = cpp_set_insert s k := by
  refine ⟨Finset.mem_insert_self k s, ?_, ?_⟩
  · by_cases h : k ∈ s
    · simp [cpp_set_insert, h, Finset.card_insert_of_mem h]
    · simp [cpp_set_insert, h, Finset.card_insert_of_not_mem h]
  · simp [cpp_set_insert, Finset.insert_idem]

/-- C10: `bump5Hours` adds exactly 18,000,000 milliseconds modulo the
64-bit representation, and when no overflow occurs the stored value is
exactly the old value plus 18,000,000. -/
theorem bump5Hours_spec (d : ℕ) :
    bump5Hours d = (d + 18000000) % 2 ^ 64 ∧
    (d + 18000000 < 2 ^ 64 → bump5Hours d = d + 18000000) := by
  constructor
  · rfl
  · intro h
    simp [bump5Hours, hoursToMillis, Nat.mod_eq_of_lt]
    omega

/-- Witness for C10 at a concrete duration. -/
theorem bump5Hours_spec_witness :
    bump5Hours 1000 = (1000 + 18000000) % 2 ^ 64 ∧ bump5Hours 1000 = 1000 + 18000000 :=
  ⟨(bump5Hours_spec 1000).1, (bump5Hours_spec 1000).2 (by decide)⟩

/-! ### The validator claim -/

/-- C7: whenever `submitEnvelope` reports a validation error, the error
is one of BadSignature, StaleSlot, Malformed, UnknownQuorumSet, and the
driver state (hence every slot's state) after the call equals the state
before it. -/
theorem submit_error_no_mutation (cfg : SCPQuorumSet) (d : Driver) (e : SCPEnvelope)
    (err : ValidationError) (h : (submitEnvelope cfg d e).1 = some err) :
    (err = .BadSignature ∨ err = .StaleSlot ∨ err = .Malformed ∨ err = .UnknownQuorumSet) ∧
    (submitEnvelope cfg d e).2 = d := by
  unfold submitEnvelope at h ⊢
  split_ifs at h ⊢ <;> simp_all

/-- Witness for C7: a concrete envelope with a wrong signature is
rejected as BadSignature and the driver is unchanged. -/
theorem submit_error_no_mutation_witness :
    (submitEnvelope cfgW ⟨0, [], []⟩ ⟨⟨1, 0, 0, .prepare ⟨1, [7]⟩⟩, []⟩).1 =
      some .BadSignature ∧
    ((ValidationError.BadSignature = .BadSignature ∨
      ValidationError.BadSignature = .StaleSlot ∨
      ValidationError.BadSignature = .Malformed ∨
      ValidationError.BadSignature = .UnknownQuorumSet) ∧
     (submitEnvelope cfgW ⟨0, [], []⟩ ⟨⟨1, 0, 0, .prepare ⟨1, [7]⟩⟩, []⟩).2 = ⟨0, [], []⟩) :=
  ⟨by decide,
   submit_error_no_mutation cfgW ⟨0, [], []⟩ ⟨⟨1, 0, 0, .prepare ⟨1, [7]⟩⟩, []⟩
     .BadSignature (by decide)⟩

/-! ### The multi-node agreement claim -/

/-- Extending the processed prefix by one message either leaves a
node's slot state unchanged or processes the new message. -/
theorem runSlot_succ (cfg : SCPQuorumSet) (sched : List SCPEnvelope) (s k : ℕ) :
    runSlot cfg sched s (k + 1) =
      match sched[k]? with
      | some e =>
          if e.statement.slotIndex = s then
            processEnvelope cfg (runSlot cfg sched s k) e
          else runSlot cfg sched s k
      | none => runSlot cfg sched s k := by
  unfold runSlot processAll
  rw [List.take_succ, List.filter_append, List.foldl_append]
  cases h : sched[k]? with
  | none => simp
  | some e => by_cases hs : e.statement.slotIndex = s <;> simp [hs]

/-- Once a node has externalized a value for a slot, processing one
more schedule message keeps that value. -/
theorem extValue_step (cfg : SCPQuorumSet) (sched : List SCPEnvelope) (s k : ℕ)
    (v : List ℕ) (h : extValue (runSlot cfg sched s k) = some v) :
    extValue (runSlot cfg sched s (k + 1)) = some v := by
  have hph : (runSlot cfg sched s k).phase = .externalize := by
    by_contra hc
    simp [extValue, hc] at h
  rw [runSlot_succ]
  cases sched[k]? with
  | none => exact h
  | some e =>
      by_cases hs : e.statement.slotIndex = s
      · simp [hs, processEnvelope_terminal cfg _ e hph, h]
      · simp [hs, h]

/-- Once a node has externalized a value for a slot, every longer
prefix of the schedule yields that same value. -/
theorem extValue_persists (cfg : SCPQuorumSet) (sched : List SCPEnvelope) (s : ℕ)
    {k k' : ℕ} (hk : k ≤ k') (v : List ℕ)
    (h : extValue (runSlot cfg sched s k) = some v) :
    extValue (runSlot cfg sched s k') = some v := by
  induction k', hk using Nat.le_induction with
  | base => exact h
  | succ m hm ih => exact extValue_step cfg sched s m v ih

/-- C2: with a fixed quorum configuration and a deterministic message
schedule, in any reachable state of the multi-node step relation no two
correct nodes have externalized different values for the same slot
index. -/
theorem externalize_agreement (cfg : SCPQuorumSet) (sched : List SCPEnvelope)
    (N s : ℕ) (counts : List ℕ) (i j : ℕ) (v w : List ℕ)
    (_hreach : Relation.ReflTransGen (SysStep sched) (List.replicate N 0) counts)
    (hi : nodeExtValue cfg sched s counts i = some v)
    (hj : nodeExtValue cfg sched s counts j = some w) :
    v = w := by
  unfold nodeExtValue at hi hj
  rcases Nat.le_total (counts.getD i 0) (counts.getD j 0) with hle | hle
  · have hp := extValue_persists cfg sched s hle v hi
    rw [hp] at hj
    injection hj
  · have hp := extValue_persists cfg sched s hle w hj
    rw [hp] at hi
    injection hi with hi
    exact hi.symm

/-- Witness for C2: a two-node system reaches the state where both
nodes processed the whole sample schedule; both externalize [7] for
slot 0. -/
theorem externalize_agreement_witness :
    Relation.ReflTransGen (SysStep schedW) (List.replicate 2 0) [3, 3] ∧
    nodeExtValue cfgW schedW 0 [3, 3] 0 = some [7] ∧
    nodeExtValue cfgW schedW 0 [3, 3] 1 = some [7] ∧
    ([7] : List ℕ) = [7] := by
  have s1 : SysStep schedW [0, 0] [1, 0] :=
    SysStep.deliver [0, 0] 0 (by decide) (by decide)
  have s2 : SysStep schedW [1, 0] [2, 0] :=
    SysStep.deliver [1, 0] 0 (by decide) (by decide)
  have s3 : SysStep schedW [2, 0] [3, 0] :=
    SysStep.deliver [2, 0] 0 (by decide) (by decide)
  have s4 : SysStep schedW [3, 0] [3, 1] :=
    SysStep.deliver [3, 0] 1 (by decide) (by decide)
  have s5 : SysStep schedW [3, 1] [3, 2] :=
    SysStep.deliver [3, 1] 1 (by decide) (by decide)
  have s6 : SysStep schedW [3, 2] [3, 3] :=
    SysStep.deliver [3, 2] 1 (by decide) (by decide)
  have hr : Relation.ReflTransGen (SysStep schedW) (List.replicate 2 0) [3, 3] :=
    .head s1 (.head s2 (.head s3 (.head s4 (.head s5 (.head s6 .refl)))))
  have h0 : nodeExtValue cfgW schedW 0 [3, 3] 0 = some [7] := by decide
  have h1 : nodeExtValue cfgW schedW 0 [3, 3] 1 = some [7] := by decide
  exact ⟨hr, h0, h1,
    externalize_agreement cfgW schedW 2 0 [3, 3] 0 1 [7] [7] hr h0 h1⟩

/-! ### The serialization round-trip claim -/

/-- Decoding right after encoding a 32-bit integer restores it. -/
theorem decodeU32_encodeU32 (n : ℕ) (r : List ℕ) (h : n < 2 ^ 32) :
    decodeU32 (encodeU32 n ++ r) = some (n, r) := by
  simp only [encodeU32, decodeU32, List.cons_append, List.nil_append,
    Option.some.injEq, Prod.mk.injEq]
  exact ⟨by omega, trivial⟩

/-- Decoding right after encoding a 64-bit integer restores it. -/
theorem decodeU64_encodeU64 (n : ℕ) (r : List ℕ) (h : n < 2 ^ 64) :
    decodeU64 (encodeU64 n ++ r) = some (n, r) := by
  have h1 : n / 2 ^ 32 < 2 ^ 32 := by omega
  have h2 : n % 2 ^ 32 < 2 ^ 32 := by omega
  simp only [encodeU64, decodeU64, List.append_assoc,
    decodeU32_encodeU32 _ _ h1, decodeU32_encodeU32 _ _ h2,
    Option.some.injEq, Prod.mk.injEq]
  exact ⟨by omega, trivial⟩

/-- Decoding right after encoding an opaque vector restores it. -/
theorem decodeOpaque_encodeOpaque (bs r : List ℕ) (h : bs.length < 2 ^ 32) :
    decodeOpaque (encodeOpaque bs ++ r) = some (bs, r) := by
  simp only [encodeOpaque, decodeOpaque, List.append_assoc,
    decodeU32_encodeU32 _ _ h]
  rw [if_pos (by simp)]
  rw [List.take_left, List.drop_left]

/-- Decoding right after encoding a sequence of opaque values restores
it. -/
theorem decodeOpaqueN_encode (vs : List (List ℕ)) (r : List ℕ)
    (h : ∀ v ∈ vs, wfValue v) :
    decodeOpaqueN vs.length (vs.foldr (fun v acc => encodeOpaque v ++ acc) [] ++ r) =
      some (vs, r) := by
  induction vs with
  | nil => simp [decodeOpaqueN]
  | cons v vs ih =>
      have hv : v.length < 2 ^ 32 := h v (by simp)
      have hrest : ∀ x ∈ vs, wfValue x := fun x hx => h x (by simp [hx])
      simp only [List.foldr_cons, List.length_cons, List.append_assoc]
      simp [decodeOpaqueN, decodeOpaque_encodeOpaque _ _ hv, ih hrest]

/-- Decoding right after encoding a counted value list restores it. -/
theorem decodeValueList_encodeValueList (vs : List (List ℕ)) (r : List ℕ)
    (hlen : vs.length < 2 ^ 32) (h : ∀ v ∈ vs, wfValue v) :
    decodeValueList (encodeValueList vs ++ r) = some (vs, r) := by
  simp only [encodeValueList, decodeValueList, List.append_assoc,
    decodeU32_encodeU32 _ _ hlen]
  exact decodeOpaqueN_encode vs r h

/-- Decoding right after encoding a ballot restores it. -/
theorem decodeBallot_encodeBallot (b : SCPBallot) (r : List ℕ) (h : wfBallot b) :
    decodeBallot (encodeBallot b ++ r) = some (b, r) := by
  obtain ⟨hc, hv⟩ := h
  simp [encodeBallot, decodeBallot, List.append_assoc,
    decodeU32_encodeU32 _ _ hc, decodeOpaque_encodeOpaque _ _ hv]

/-- Decoding right after encoding a pledge restores it. -/
theorem decodePledge_encodePledge (p : SCPPledge) (r : List ℕ) (h : wfPledge p) :
    decodePledge (encodePledge p ++ r) = some (p, r) := by
  cases p with
  | nominate votes accepted =>
      obtain ⟨h1, h2, h3, h4⟩ := h
      simp [encodePledge, decodePledge, List.append_assoc,
        decodeU32_encodeU32 0 _ (by norm_num),
        decodeValueList_encodeValueList votes _ h1 h3,
        decodeValueList_encodeValueList accepted _ h2 h4]
  | prepare b =>
      simp [encodePledge, decodePledge, List.append_assoc,
        decodeU32_encodeU32 1 _ (by norm_num),
        decodeBallot_encodeBallot b _ h]
  | confirm b nc nh =>
      obtain ⟨hb, hnc, hnh⟩ := h
      simp [encodePledge, decodePledge, List.append_assoc,
        decodeU32_encodeU32 2 _ (by norm_num),
        decodeBallot_encodeBallot b _ hb,
        decodeU32_encodeU32 nc _ hnc,
        decodeU32_encodeU32 nh _ hnh]
  | externalize b nh =>
      obtain ⟨hb, hnh⟩ := h
      simp [encodePledge, decodePledge, List.append_assoc,
        decodeU32_encodeU32 3 _ (by norm_num),
        decodeBallot_encodeBallot b _ hb,
        decodeU32_encodeU32 nh _ hnh]

/-- Decoding right after serializing a statement restores it. -/
theorem deserializeStatement_serialize (st : SCPStatement) (r : List ℕ)
    (h : wfStatement st) :
    deserializeStatement (XDRToOpaqueStatement st ++ r) = some (st, r) := by
  obtain ⟨h1, h2, h3, h4⟩ := h
  simp [XDRToOpaqueStatement, deserializeStatement, List.append_assoc,
    decodeU64_encodeU64 _ _ h1, decodeU64_encodeU64 _ _ h2,
    decodeU64_encodeU64 _ _ h3, decodePledge_encodePledge _ _ h4]

/-- C1: deserializing the XDR serialization of an envelope yields the
very same envelope, hence an identical statement and signature; the
serialization side is the modelled `XDRToOpaque` encoding of the
statement and the opaque signature bytes. -/
theorem envelope_roundtrip (e : SCPEnvelope) (h : wfEnvelope e) :
    deserializeEnvelope (serializeEnvelope e) = some e := by
  obtain ⟨hst, hsig⟩ := h
  have hs : deserializeStatement (XDRToOpaqueStatement e.statement ++
      XDRToOpaqueBytes e.signature) = some (e.statement, XDRToOpaqueBytes e.signature) :=
    deserializeStatement_serialize e.statement _ hst
  have hb : decodeOpaque (encodeOpaque e.signature ++ []) = some (e.signature, []) :=
    decodeOpaque_encodeOpaque e.signature [] hsig
  rw [List.append_nil] at hb
  simp only [XDRToOpaqueBytes] at hs
  simp [serializeEnvelope, deserializeEnvelope, XDRToOpaqueBytes, hs, hb]

/-- Witness for C1: round-trip of a concrete envelope. -/
theorem envelope_roundtrip_witness :
    deserializeEnvelope (serializeEnvelope ⟨⟨1, 0, 2, .prepare ⟨1, [7]⟩⟩, [4, 5]⟩) =
      some ⟨⟨1, 0, 2, .prepare ⟨1, [7]⟩⟩, [4, 5]⟩ :=
  envelope_roundtrip ⟨⟨1, 0, 2, .prepare ⟨1, [7]⟩⟩, [4, 5]⟩
    (by norm_num [wfEnvelope, wfStatement, wfPledge, wfBallot, wfValue])

end Agora
